import Mathlib

/-!
Verification of the NVX acquisition-core interface (nvx/dll/include/nvx.h).

The repository ships the C header with the full API contract in its doc
comments; the function bodies live outside the repository.  Constants, enums
and struct layouts below are embedded directly from the header.  Behavioural
definitions (ring-buffer drain, impedance read-out, state-machine setters)
are modelled from the specification, as marked in their doc comments.
-/

/-! ## Error codes (nvx.h lines 29-33) -/

def NVX_ERR_OK : Int := 0

def NVX_ERR_HANDLE : Int := -1

def NVX_ERR_PARAM : Int := -2

def NVX_ERR_FAIL : Int := -3

def NVX_ERR_DATA_RATE : Int := -4

/-- The four failure classes of the shared error taxonomy. -/
def nvxErrorCodes : List Int := [NVX_ERR_HANDLE, NVX_ERR_PARAM, NVX_ERR_FAIL, NVX_ERR_DATA_RATE]

/-- Invalid (not connected) impedance value: INT_MAX from limits.h (nvx.h line 36). -/
def NVX_IMP_INVALID : Nat := 2 ^ 31 - 1

/-- Max devices count connected to media converter (nvx.h line 39). -/
def NVX_DEVICES_COUNT_MAX : Nat := 3

/-! ## Electrode LED / switch preprocessor constants (nvx.h lines 42-49)

The header defines these as C preprocessor object-like defines.  Four of them
expand to closed integer expressions; NVX_EL_LED_YELLOW expands to a
disjunction of two further identifiers.  We embed the define table and its
one-step expansion so the value, or the absence of one, of each constant is
derivable. -/

/-- Identifiers occurring in the electrode define table of nvx.h, together
with the two AC_-spelled identifiers that line 45 of the header refers to. -/
inductive CIdent where
  | nvxElLedOff
  | nvxElLedGreen
  | nvxElLedRed
  | nvxElLedYellow
  | nvxElSwitchOn
  | nvxElSwitchOff
  | acElLedGreen
  | acElLedRed
deriving DecidableEq

/-- Right-hand side of an object-like define: an integer literal, a shift
expression, or a bitwise-or of two identifiers. -/
inductive CExpr where
  | lit : Nat → CExpr
  | shl : Nat → Nat → CExpr
  | orr : CIdent → CIdent → CExpr
deriving DecidableEq

/-- The electrode define table exactly as written in nvx.h lines 42-49:
OFF is 0, GREEN is 1 shifted left 0, RED is 1 shifted left 1, YELLOW is the
bitwise or of the identifiers AC_EL_LED_GREEN and AC_EL_LED_RED as spelled
in the header, SWITCH_ON is 1 shifted left 2, SWITCH_OFF is 0 shifted left 2. -/
def headerDefines : List (CIdent × CExpr) :=
  [ (.nvxElLedOff, .lit 0),
    (.nvxElLedGreen, .shl 1 0),
    (.nvxElLedRed, .shl 1 1),
    (.nvxElLedYellow, .orr .acElLedGreen .acElLedRed),
    (.nvxElSwitchOn, .shl 1 2),
    (.nvxElSwitchOff, .shl 0 2) ]

/-- The same table with line 45 spelled with the NVX_ identifiers, which is
what the trailing comment of that line and the naming convention of every
other define in the header intend. -/
def intendedDefines : List (CIdent × CExpr) :=
  [ (.nvxElLedOff, .lit 0),
    (.nvxElLedGreen, .shl 1 0),
    (.nvxElLedRed, .shl 1 1),
    (.nvxElLedYellow, .orr .nvxElLedGreen .nvxElLedRed),
    (.nvxElSwitchOn, .shl 1 2),
    (.nvxElSwitchOff, .shl 0 2) ]

/-- Look an identifier up in a define table. -/
def ppLookup (t : List (CIdent × CExpr)) (n : CIdent) : Option CExpr :=
  match t with
  | [] => none
  | (m, e) :: rest => if m = n then some e else ppLookup rest n

/-- Value of an expression that refers to no further identifier. -/
def evalAtom : CExpr → Option Nat
  | .lit n => some n
  | .shl a b => some (a <<< b)
  | .orr _ _ => none

/-- Full expansion of a defined identifier: atoms evaluate directly, a
bitwise-or of identifiers evaluates when both identifiers are themselves
defined as atoms; an identifier absent from the table has no value. -/
def ppEval (t : List (CIdent × CExpr)) (n : CIdent) : Option Nat :=
  match ppLookup t n with
  | none => none
  | some (.orr a b) =>
      match ppLookup t a with
      | none => none
      | some ea =>
        match ppLookup t b with
        | none => none
        | some eb =>
          match evalAtom ea, evalAtom eb with
          | some va, some vb => some (va ||| vb)
          | _, _ => none
  | some e => evalAtom e

/-! ## Packed struct layout (nvx.h lines 53-205)

All public structures are declared between pragma pack(push, 1) and
pragma pack(pop).  We embed a general x86 struct layout computation
parameterised by the pack value, and the field lists of the ten structures. -/

/-- C field types occurring in the public structures. -/
inductive CFieldType where
  | cuint
  | cull
  | cfloat
  | cenum
  | cuintArr : Nat → CFieldType
deriving DecidableEq

/-- Size in bytes: unsigned int 4, unsigned long long 8, float 4,
enum 4 (int-backed), an array of n unsigned int 4*n. -/
def csize : CFieldType → Nat
  | .cuint => 4
  | .cull => 8
  | .cfloat => 4
  | .cenum => 4
  | .cuintArr n => 4 * n

/-- Natural alignment in bytes (element alignment for arrays). -/
def calign : CFieldType → Nat
  | .cuint => 4
  | .cull => 8
  | .cfloat => 4
  | .cenum => 4
  | .cuintArr _ => 4

/-- Round off up to the next multiple of a. -/
def alignTo (off a : Nat) : Nat :=
  if a = 0 then off else (off + a - 1) / a * a

/-- Byte offsets of the fields of a struct laid out under pragma pack(p):
each field is placed at the current offset rounded up to the minimum of its
natural alignment and the pack value. -/
def layoutOffsets (p : Nat) : Nat → List CFieldType → List Nat
  | _, [] => []
  | off, t :: ts =>
    let o := alignTo off (min (calign t) p)
    o :: layoutOffsets p (o + csize t) ts

/-- Offsets when every field sits at exactly the sum of the sizes of the
fields preceding it, with no padding anywhere. -/
def packedSums : Nat → List CFieldType → List Nat
  | _, [] => []
  | off, t :: ts => off :: packedSums (off + csize t) ts

/-- t_NVXVersion (nvx.h lines 56-63): six unsigned long long. -/
def tNVXVersionFields : List CFieldType :=
  [.cull, .cull, .cull, .cull, .cull, .cull]

/-- t_NVXSettings (nvx.h lines 98-103): Mode, Rate, AdcFilter, Decimation. -/
def tNVXSettingsFields : List CFieldType :=
  [.cenum, .cenum, .cenum, .cenum]

/-- t_NVXProperty (nvx.h lines 106-116). -/
def tNVXPropertyFields : List CFieldType :=
  [.cuint, .cuint, .cuint, .cuint, .cfloat, .cfloat, .cfloat, .cfloat, .cfloat]

/-- t_NVXDataStatus (nvx.h lines 131-136). -/
def tNVXDataStatusFields : List CFieldType :=
  [.cuint, .cuint, .cfloat, .cfloat]

/-- t_NVXErrorStatus (nvx.h lines 139-144); Devices is an array of
NVX_DEVICES_COUNT_MAX unsigned int. -/
def tNVXErrorStatusFields : List CFieldType :=
  [.cuint, .cuint, .cuint, .cuintArr NVX_DEVICES_COUNT_MAX]

/-- t_NVXImpedanceSetup (nvx.h lines 147-153). -/
def tNVXImpedanceSetupFields : List CFieldType :=
  [.cuint, .cuint, .cuint, .cuint]

/-- t_NVXImpedanceMode (nvx.h lines 156-166). -/
def tNVXImpedanceModeFields : List CFieldType :=
  [.cuint, .cuint, .cuint, .cuint, .cuint, .cuint]

/-- t_NVXImpedanceSettings (nvx.h lines 175-177). -/
def tNVXImpedanceSettingsFields : List CFieldType :=
  [.cenum]

/-- t_NVXVoltages (nvx.h lines 179-195): twelve float fields. -/
def tNVXVoltagesFields : List CFieldType :=
  [.cfloat, .cfloat, .cfloat, .cfloat, .cfloat, .cfloat, .cfloat, .cfloat,
   .cfloat, .cfloat, .cfloat, .cfloat]

/-- t_NVXFrequencyBandwidth (nvx.h lines 198-203). -/
def tNVXFrequencyBandwidthFields : List CFieldType :=
  [.cuint, .cuint, .cenum, .cenum]

/-- The ten public structures declared under pragma pack(push, 1). -/
def packedStructs : List (List CFieldType) :=
  [tNVXVersionFields, tNVXSettingsFields, tNVXPropertyFields,
   tNVXDataStatusFields, tNVXErrorStatusFields, tNVXImpedanceSetupFields,
   tNVXImpedanceModeFields, tNVXImpedanceSettingsFields, tNVXVoltagesFields,
   tNVXFrequencyBandwidthFields]

/-! ## Gain enum (nvx.h lines 119-122) -/

/-- t_NVXGain: the declared enumerators of the device gain enum. -/
inductive t_NVXGain where
  | NVX_GAIN_1
  | NVX_GAIN_5
deriving DecidableEq

/-- The integer code each enumerator is declared equal to in nvx.h:
NVX_GAIN_1 = 0 and NVX_GAIN_5 = 1. -/
def gainCode : t_NVXGain → Nat
  | .NVX_GAIN_1 => 0
  | .NVX_GAIN_5 => 1

/-- The physical gain each enumerator stands for, per the trailing comments
of nvx.h lines 120-121. -/
def gainValue : t_NVXGain → Nat
  | .NVX_GAIN_1 => 1
  | .NVX_GAIN_5 => 5

/-! ## Sample records and the drain contract (nvx.h lines 294-325)

NVXGetData documents a fixed packed record layout: N signed 32-bit EEG
values, M signed 32-bit AUX values, one unsigned 32-bit Status word, one
unsigned 32-bit Counter, with the byte offsets tabulated in the header. -/

/-- One acquisition-tick sample record, as tabulated in nvx.h lines 297-314. -/
structure SampleRecord where
  eeg : List Int
  aux : List Int
  status : Nat
  counter : Nat

/-- A record is well formed for a device with nE EEG and nA AUX channels. -/
def wfRecord (nE nA : Nat) (r : SampleRecord) : Prop :=
  r.eeg.length = nE ∧ r.aux.length = nA

/-- Little-endian bytes of one unsigned 32-bit word. -/
def u32le (n : Nat) : List Nat :=
  [n % 256, n / 256 % 256, n / 65536 % 256, n / 16777216 % 256]

/-- Little-endian bytes of one signed 32-bit word, two's complement. -/
def i32le (v : Int) : List Nat :=
  u32le ((v % (2 ^ 32 : Int)).toNat)

/-- Concatenated signed 32-bit encodings of a channel-value list. -/
def i32Bytes : List Int → List Nat
  | [] => []
  | v :: vs => i32le v ++ i32Bytes vs

/-- Byte image of one record in the documented layout: EEG block, AUX
block, Status, Counter, packed with no padding. -/
def serializeRecord (r : SampleRecord) : List Nat :=
  i32Bytes r.eeg ++ (i32Bytes r.aux ++ (u32le r.status ++ u32le r.counter))

/-- Size in bytes of one record for a device with nE EEG and nA AUX
channels: nE + nA signed words, Status and Counter, four bytes each. -/
def recordSize (nE nA : Nat) : Nat :=
  (nE + nA + 2) * 4

/-- Concatenated byte images of a run of records. -/
def recordsBytes : List SampleRecord → List Nat
  | [] => []
  | r :: rs => serializeRecord r ++ recordsBytes rs

/-- Modelled from the spec: the body of NVXGetData is not in the repository
(nvx.h carries only its declaration and contract).  Ring-buffer drain per
spec section 4.1 and nvx.h lines 316-323: copy as many whole records as fit
in a Size-byte buffer, remove them from the internal buffer, and return the
number of bytes of whole records copied; 0 means the buffer is empty.
Result: (return value, bytes copied, remaining internal buffer). -/
def drain (nE nA : Nat) (buf : List SampleRecord) (size : Nat) :
    Int × List Nat × List SampleRecord :=
  let k := min buf.length (size / recordSize nE nA)
  (Int.ofNat (k * recordSize nE nA), recordsBytes (buf.take k), buf.drop k)

/-- Acquisition run state of the state machine (spec section 4.3). -/
inductive RunState where
  | stopped
  | running
deriving DecidableEq

/-- AcquisitionSettings payload, mirroring t_NVXSettings (nvx.h lines
98-103) with the enum codes as integers. -/
structure AcqSettings where
  mode : Nat
  rate : Nat
  adcFilter : Nat
  decimation : Nat
deriving DecidableEq

/-- Modelled from the spec: per-device session state of the acquisition
core (spec sections 2-4); the repository holds no implementation, only the
nvx.h interface the state sits behind. -/
structure Device where
  countEeg : Nat
  countAux : Nat
  runState : RunState
  powerSaveApplied : Bool
  settings : AcqSettings
  channelsEnabled : List Bool
  buffer : List SampleRecord
  electrodeOverride : Option (List Nat)
  connected : List Bool
  measured : List Nat

/-- Modelled from the spec: NVXGetData entry point (nvx.h lines 294-325);
an invalid (absent) handle is rejected with the Handle error, otherwise the
ring buffer is drained.  Result: (return value, bytes, updated device). -/
def NVXGetData (h : Option Device) (size : Nat) :
    Int × List Nat × Option Device :=
  match h with
  | none => (NVX_ERR_HANDLE, [], none)
  | some d =>
    let out := drain d.countEeg d.countAux d.buffer size
    (out.1, out.2.1, some { d with buffer := out.2.2 })

/-- Modelled from the spec: per-electrode impedance read-out of
NVXImpedanceGetData (spec section 4.4, nvx.h lines 403-422): one unsigned
32-bit Ohm value per EEG channel plus one ground value (last entry); an
electrode that is not physically connected reports NVX_IMP_INVALID. -/
def impedanceValues (d : Device) : List Nat :=
  (List.range (d.countEeg + 1)).map fun i =>
    if d.connected.getD i false then d.measured.getD i NVX_IMP_INVALID
    else NVX_IMP_INVALID

/-- Modelled from the spec: NVXImpedanceGetData entry point (nvx.h lines
403-422): Handle error on an invalid handle, Parameter error unless the
destination holds exactly CountEeg + 1 unsigned 32-bit values, otherwise
the impedance vector is written. -/
def NVXImpedanceGetData (h : Option Device) (size : Nat) : Int × List Nat :=
  match h with
  | none => (NVX_ERR_HANDLE, [])
  | some d =>
    if size = (d.countEeg + 1) * 4 then (NVX_ERR_OK, impedanceValues d)
    else (NVX_ERR_PARAM, [])

/-- Modelled from the spec: NVXSetChannelsEnabled (spec sections 4.3 and 8,
nvx.h lines 578-590): legal only in the Stopped state and only after
NVXSetPowerSave has been applied in the current stopped configuration
phase; a call while Running fails with the Fail error and mutates nothing;
a buffer whose size is not CountEeg + CountAux bool bytes is a Parameter
error.  Result: (return value, updated device). -/
def NVXSetChannelsEnabled (d : Device) (chans : List Bool) (size : Nat) :
    Int × Device :=
  if d.runState = RunState.running then (NVX_ERR_FAIL, d)
  else if !d.powerSaveApplied then (NVX_ERR_FAIL, d)
  else if size = d.countEeg + d.countAux ∧ chans.length = d.countEeg + d.countAux then
    (NVX_ERR_OK, { d with channelsEnabled := chans })
  else (NVX_ERR_PARAM, d)

/-- Modelled from the spec: NVXSetPowerSave (nvx.h lines 392-401), which
must be called before NVXSetChannelsEnabled; recorded as the ordering flag
of the current stopped configuration phase. -/
def NVXSetPowerSave (d : Device) : Int × Device :=
  if d.runState = RunState.running then (NVX_ERR_FAIL, d)
  else (NVX_ERR_OK, { d with powerSaveApplied := true })

/-- Modelled from the spec: NVXSetElectrodes (spec section 4.5, nvx.h lines
468-496).  Buffer is declared unsigned int per electrode in the header, one
entry per EEG channel plus one for ground, Size in bytes; a NULL or empty
buffer leaves direct-control mode, a buffer of exactly (CountEeg + 1)
entries, that is (CountEeg + 1) * 4 bytes, enters it, and any other size is
structurally invalid.  Result: (return value, updated device). -/
def NVXSetElectrodes (d : Device) (buf : List Nat) (size : Nat) :
    Int × Device :=
  if size = 0 ∨ buf = [] then (NVX_ERR_OK, { d with electrodeOverride := none })
  else if size = (d.countEeg + 1) * 4 ∧ buf.length = d.countEeg + 1 then
    (NVX_ERR_OK, { d with electrodeOverride := some buf })
  else (NVX_ERR_PARAM, d)

/-! ## Handle-taking entry points and NULL-handle behaviour -/

/-- The handle-taking entry points declared in nvx.h (every NVX_API
function whose first argument is the device handle; NVXSetEmulation,
NVXGetCount and NVXOpen take none). -/
inductive ApiOp where
  | getVersion
  | close
  | getSettings
  | setSettings
  | getProperty
  | start
  | stop
  | getData
  | getDataStatus
  | getErrorStatus
  | getTriggers
  | setTriggers
  | getAuxGain
  | setAuxGain
  | getPowerSave
  | setPowerSave
  | impedanceGetData
  | impedanceGetSetup
  | impedanceSetSetup
  | impedanceGetMode
  | impedanceSetMode
  | setElectrodes
  | impedanceGetSettings
  | impedanceSetSettings
  | getVoltages
  | setActiveShieldGain
  | getPolarization
  | getSampeRateCount
  | getFrequencyBandwidth
  | getChannelsEnabled
  | setChannelsEnabled
  | getPll
  | setPll
deriving DecidableEq

/-- Modelled from the spec: which entry points accept hDevice = NULL, per
the notes in nvx.h.  NVXGetVersion (line 220, only the Dll field is then
valid), NVXGetSampeRateCount (line 550, default value) and
NVXGetFrequencyBandwidth (line 559, default value) do; no other handle
note appears in the header, so every other handle-taking entry point
requires a valid open handle. -/
def acceptsNullHandle : ApiOp → Bool
  | .getVersion => true
  | .getSampeRateCount => true
  | .getFrequencyBandwidth => true
  | _ => false

/-- Modelled from the spec: return code of an entry point invoked with
hDevice = NULL: success for the three NULL-tolerant queries, the Handle
error for every other operation. -/
def callWithNullHandle (op : ApiOp) : Int :=
  if acceptsNullHandle op then NVX_ERR_OK else NVX_ERR_HANDLE

/-- The six fields of t_NVXVersion (nvx.h lines 56-63). -/
inductive VersionField where
  | dll
  | driver
  | cypress
  | mcFpga
  | msp430
  | cbFpga
deriving DecidableEq

/-- Modelled from the spec: which t_NVXVersion fields NVXGetVersion fills
with valid data: all of them with an open handle, only Dll when
hDevice = NULL (nvx.h line 220). -/
def validVersionFields (h : Option Device) : List VersionField :=
  match h with
  | none => [.dll]
  | some _ =>
    [.dll, .driver, .cypress, .mcFpga, .msp430, .cbFpga]

/-- Modelled from the spec: the default sample-rate count NVXGetSampeRateCount
reports for hDevice = NULL (nvx.h line 550): one count per declared
t_NVXRate enumerator. -/
def defaultSampleRateCount : Nat := 3

/-- Modelled from the spec: NVXGetSampeRateCount (nvx.h lines 547-554):
with hDevice = NULL it succeeds and reports the default value. -/
def NVXGetSampeRateCount (h : Option Device) : Int × Nat :=
  match h with
  | none => (NVX_ERR_OK, defaultSampleRateCount)
  | some _ => (NVX_ERR_OK, defaultSampleRateCount)

/-- End offset of a struct laid out under pragma pack(p): the offset one
past the last field. -/
def layoutEnd (p : Nat) : Nat → List CFieldType → Nat
  | off, [] => off
  | off, t :: ts => layoutEnd p (alignTo off (min (calign t) p) + csize t) ts

/-- Largest natural field alignment of a struct (1 for an empty one). -/
def maxAlignOf : List CFieldType → Nat
  | [] => 1
  | t :: ts => max (calign t) (maxAlignOf ts)

/-- Total size of a struct under pragma pack(p): the end offset rounded up
to the struct alignment, itself capped by the pack value. -/
def layoutSize (p : Nat) (fs : List CFieldType) : Nat :=
  alignTo (layoutEnd p 0 fs) (min (maxAlignOf fs) p)

/-- Sum of the field sizes of a struct. -/
def sumSizes : List CFieldType → Nat
  | [] => 0
  | t :: ts => csize t + sumSizes ts

/-! ## Concrete instances used to exercise the theorems -/

/-- An all-zero record for a device with nE EEG and nA AUX channels. -/
def zeroRecord (nE nA : Nat) : SampleRecord :=
  { eeg := List.replicate nE 0, aux := List.replicate nA 0,
    status := 0, counter := 0 }

/-- Default-mode acquisition settings payload. -/
def demoSettings : AcqSettings :=
  { mode := 0, rate := 0, adcFilter := 0, decimation := 0 }

/-- A concrete session state with the given channel counts, run state,
power-save flag and internal buffer; no electrode is connected and direct
electrode control is off. -/
def mkDevice (nE nA : Nat) (rs : RunState) (ps : Bool)
    (buf : List SampleRecord) : Device :=
  { countEeg := nE, countAux := nA, runState := rs, powerSaveApplied := ps,
    settings := demoSettings,
    channelsEnabled := List.replicate (nE + nA) true,
    buffer := buf, electrodeOverride := none,
    connected := List.replicate (nE + 1) false,
    measured := List.replicate (nE + 1) 0 }

/-! ## Helper lemmas -/

theorem u32le_length (n : Nat) : (u32le n).length = 4 := rfl

theorem i32le_length (v : Int) : (i32le v).length = 4 := rfl

theorem i32Bytes_length (l : List Int) : (i32Bytes l).length = 4 * l.length := by
  induction l with
  | nil => rfl
  | cons x xs ih =>
    simp only [i32Bytes, List.length_append, i32le_length, ih, List.length_cons]
    omega

theorem i32Bytes_drop (l : List Int) (k : Nat) :
    (i32Bytes l).drop (4 * k) = i32Bytes (l.drop k) := by
  induction l generalizing k with
  | nil => simp [i32Bytes]
  | cons x xs ih =>
    cases k with
    | zero => simp
    | succ k =>
      have h4 : 4 * (k + 1) = (i32le x).length + 4 * k := by
        simp [i32le_length]; omega
      rw [i32Bytes, h4, List.drop_append, List.drop_succ_cons, ih]

theorem i32Bytes_take4 (x : Int) (xs : List Int) :
    (i32Bytes (x :: xs)).take 4 = i32le x := by
  rw [i32Bytes, List.take_left' (i32le_length x)]

theorem recordsBytes_length (nE nA : Nat) (rs : List SampleRecord)
    (h : ∀ r ∈ rs, wfRecord nE nA r) :
    (recordsBytes rs).length = rs.length * recordSize nE nA := by
  induction rs with
  | nil => simp [recordsBytes]
  | cons r rest ih =>
    have hr := h r (List.mem_cons_self r rest)
    have hrest := ih fun s hs => h s (List.mem_cons_of_mem r hs)
    simp only [recordsBytes, List.length_append, hrest, List.length_cons]
    have : (serializeRecord r).length = recordSize nE nA := by
      simp only [serializeRecord, List.length_append, i32Bytes_length,
        u32le_length, recordSize, hr.1, hr.2]
      omega
    rw [this]; ring

/-! ## Claim theorems -/

/-- C4: the error taxonomy is exactly success = 0 plus four pairwise
distinct negative failure codes: NVX_ERR_HANDLE = -1, NVX_ERR_PARAM = -2,
NVX_ERR_FAIL = -3, NVX_ERR_DATA_RATE = -4; every negative return therefore
identifies one failure class unambiguously. -/
theorem errorTaxonomy_exact :
    NVX_ERR_OK = 0 ∧ NVX_ERR_HANDLE = -1 ∧ NVX_ERR_PARAM = -2 ∧
    NVX_ERR_FAIL = -3 ∧ NVX_ERR_DATA_RATE = -4 ∧
    nvxErrorCodes = [NVX_ERR_HANDLE, NVX_ERR_PARAM, NVX_ERR_FAIL, NVX_ERR_DATA_RATE] ∧
    nvxErrorCodes.Nodup ∧ (∀ c ∈ nvxErrorCodes, c < 0) := by
  decide

/-- C8: t_NVXGain encodes the physical gain as an enum code, not as the
literal value: NVX_GAIN_1 = 0 stands for gain 1 and NVX_GAIN_5 = 1 stands
for gain 5, so the literal integer 5 is outside the declared enum codes
even though the NVXSetAuxGain doc reads gain value (1 or 5). -/
theorem gainEnum_code_not_value :
    gainCode t_NVXGain.NVX_GAIN_1 = 0 ∧ gainCode t_NVXGain.NVX_GAIN_5 = 1 ∧
    gainValue t_NVXGain.NVX_GAIN_1 = 1 ∧ gainValue t_NVXGain.NVX_GAIN_5 = 5 ∧
    (∀ g : t_NVXGain, gainCode g = 0 ∨ gainCode g = 1) ∧
    (∀ g : t_NVXGain, gainCode g ≠ 5) := by
  refine ⟨rfl, rfl, rfl, rfl, ?_, ?_⟩ <;> intro g <;> cases g <;> simp [gainCode]

/-- C6 at the failing input: in the define table exactly as written in
nvx.h, NVX_EL_LED_OFF, GREEN, RED, SWITCH_ON, SWITCH_OFF expand to 0, 1,
2, 4, 0, but NVX_EL_LED_YELLOW has no value at all, because line 45 spells
its operands AC_EL_LED_GREEN and AC_EL_LED_RED, identifiers defined
nowhere in the repository; under the intended NVX_ spelling it would
expand to 1 ||| 2 = 3 as the claim states. -/
theorem ledYellow_defined_from_missing_idents :
    ppEval headerDefines CIdent.nvxElLedOff = some 0 ∧
    ppEval headerDefines CIdent.nvxElLedGreen = some 1 ∧
    ppEval headerDefines CIdent.nvxElLedRed = some 2 ∧
    ppEval headerDefines CIdent.nvxElSwitchOn = some 4 ∧
    ppEval headerDefines CIdent.nvxElSwitchOff = some 0 ∧
    ppLookup headerDefines CIdent.acElLedGreen = none ∧
    ppLookup headerDefines CIdent.acElLedRed = none ∧
    ppEval headerDefines CIdent.nvxElLedYellow = none ∧
    ppEval intendedDefines CIdent.nvxElLedYellow = some 3 ∧
    (1 : Nat) ||| 2 = 3 := by
  decide

/-- C10: each of the ten public structures is declared under pragma
pack(push, 1), and under that layout every field offset equals the sum of
the sizes of the preceding fields and the struct size equals the sum of
all field sizes, with no padding anywhere. -/
theorem packedStructs_no_padding :
    ∀ fs ∈ packedStructs,
      layoutOffsets 1 0 fs = packedSums 0 fs ∧ layoutSize 1 fs = sumSizes fs := by
  decide

/-- Witness for C10 at t_NVXVersion, whose fields are the ten structures'
only 8-byte-aligned ones: its packed offsets are 0, 8, .., 40 and its
packed size 48. -/
theorem packedStructs_no_padding_witness :
    tNVXVersionFields ∈ packedStructs ∧
    (layoutOffsets 1 0 tNVXVersionFields = packedSums 0 tNVXVersionFields ∧
     layoutSize 1 tNVXVersionFields = sumSizes tNVXVersionFields) :=
  ⟨by decide, packedStructs_no_padding tNVXVersionFields (by decide)⟩

/-- C1: a sample record is packed with no padding as CountEeg signed
32-bit EEG values, then CountAux signed 32-bit AUX values, then the 32-bit
Status word, then the 32-bit Counter, at exactly the byte offsets
tabulated in nvx.h, so one record occupies exactly
(CountEeg + CountAux + 2) * 4 bytes; and for a device with CountEeg = 32
and CountAux = 8, draining a 4096-byte buffer after exactly 10 records
have been pushed returns exactly 1680 bytes and the next call returns 0. -/
theorem recordLayout_and_drainScene (nE nA : Nat) (r : SampleRecord)
    (hr : wfRecord nE nA r) :
    (serializeRecord r).length = recordSize nE nA ∧
    (∀ k, k < nE →
      ((serializeRecord r).drop (4 * k)).take 4 = i32le (r.eeg.getD k 0)) ∧
    (∀ m, m < nA →
      ((serializeRecord r).drop (4 * nE + 4 * m)).take 4 = i32le (r.aux.getD m 0)) ∧
    ((serializeRecord r).drop (4 * (nE + nA))).take 4 = u32le r.status ∧
    ((serializeRecord r).drop (4 * (nE + nA) + 4)).take 4 = u32le r.counter ∧
    (∀ recs : List SampleRecord, recs.length = 10 →
      (∀ s ∈ recs, wfRecord 32 8 s) →
      (drain 32 8 recs 4096).1 = 1680 ∧
      (drain 32 8 recs 4096).2.1.length = 1680 ∧
      (drain 32 8 (drain 32 8 recs 4096).2.2 4096).1 = 0) := by
  obtain ⟨hE, hA⟩ := hr
  have hEegLen : (i32Bytes r.eeg).length = 4 * nE := by rw [i32Bytes_length, hE]
  have hAuxLen : (i32Bytes r.aux).length = 4 * nA := by rw [i32Bytes_length, hA]
  refine ⟨?_, ?_, ?_, ?_, ?_, ?_⟩
  · simp only [serializeRecord, List.length_append, hEegLen, hAuxLen,
      u32le_length, recordSize]
    omega
  · intro k hk
    have hk' : k < r.eeg.length := by omega
    rw [serializeRecord,
      List.drop_append_of_le_length (by rw [hEegLen]; omega),
      i32Bytes_drop, List.drop_eq_getElem_cons hk']
    simp only [i32Bytes]
    rw [List.append_assoc, List.take_left' (i32le_length _),
      List.getD_eq_getElem r.eeg 0 hk']
  · intro m hm
    have hm' : m < r.aux.length := by omega
    have hsplit : 4 * nE + 4 * m = (i32Bytes r.eeg).length + 4 * m := by
      rw [hEegLen]
    rw [serializeRecord, hsplit, List.drop_append,
      List.drop_append_of_le_length (by rw [hAuxLen]; omega),
      i32Bytes_drop, List.drop_eq_getElem_cons hm']
    simp only [i32Bytes]
    rw [List.append_assoc, List.take_left' (i32le_length _),
      List.getD_eq_getElem r.aux 0 hm']
  · have hsplit : 4 * (nE + nA) = (i32Bytes r.eeg).length + 4 * nA := by
      rw [hEegLen]; omega
    have hsplit2 : 4 * nA = (i32Bytes r.aux).length + 0 := by
      rw [hAuxLen]; omega
    rw [serializeRecord, hsplit, List.drop_append, hsplit2, List.drop_append,
      List.drop_zero, List.take_left' (u32le_length _)]
  · have hsplit : 4 * (nE + nA) + 4 = (i32Bytes r.eeg).length + (4 * nA + 4) := by
      rw [hEegLen]; omega
    have hsplit2 : 4 * nA + 4 = (i32Bytes r.aux).length + 4 := by
      rw [hAuxLen]
    have hsplit3 : (4 : Nat) = (u32le r.status).length + 0 := by
      rw [u32le_length]
    rw [serializeRecord, hsplit, List.drop_append, hsplit2, List.drop_append,
      hsplit3, List.drop_append, List.drop_zero,
      List.take_of_length_le (by simp [u32le_length])]
  · intro recs hlen hwf
    have hk : min recs.length (4096 / recordSize 32 8) = 10 := by
      rw [hlen]; norm_num [recordSize]
    refine ⟨?_, ?_, ?_⟩
    · simp only [drain]
      rw [hk]; norm_num [recordSize]
    · simp only [drain]
      rw [hk,
        recordsBytes_length 32 8 _ (fun s hs => hwf s (List.mem_of_mem_take hs)),
        List.length_take, hlen]
      norm_num [recordSize]
    · simp only [drain]
      rw [hk]
      have hnil : recs.drop 10 = [] := List.drop_eq_nil_of_le (by omega)
      rw [hnil]
      norm_num

/-- Witness for C1: a concrete all-zero record for CountEeg = 32,
CountAux = 8 is well formed and serializes to exactly
(32 + 8 + 2) * 4 = 168 bytes. -/
theorem recordLayout_and_drainScene_witness :
    wfRecord 32 8 (zeroRecord 32 8) ∧
    (serializeRecord (zeroRecord 32 8)).length = recordSize 32 8 :=
  ⟨by constructor <;> simp [zeroRecord],
   (recordLayout_and_drainScene 32 8 (zeroRecord 32 8)
     (by constructor <;> simp [zeroRecord])).1⟩

/-- C2: NVXGetData returns a positive number equal to the exact byte count
of whole records copied whenever records are available (given the buffer
admits at least one whole record), exactly 0 when the internal buffer is
empty, and a negative code from the shared error taxonomy otherwise; each
positive drain strictly shrinks the internal buffer, so polling until 0 is
the host's terminating obligation. -/
theorem NVXGetData_poll_contract (d : Device) (size : Nat)
    (hwf : ∀ r ∈ d.buffer, wfRecord d.countEeg d.countAux r)
    (hsize : recordSize d.countEeg d.countAux ≤ size) :
    (d.buffer ≠ [] →
      0 < (NVXGetData (some d) size).1 ∧
      (NVXGetData (some d) size).1 =
        Int.ofNat (NVXGetData (some d) size).2.1.length ∧
      (∀ d2, (NVXGetData (some d) size).2.2 = some d2 →
        d2.buffer.length < d.buffer.length)) ∧
    (d.buffer = [] → (NVXGetData (some d) size).1 = 0) ∧
    ((NVXGetData none size).1 = NVX_ERR_HANDLE ∧
      (NVXGetData none size).1 ∈ nvxErrorCodes ∧ (NVXGetData none size).1 < 0) := by
  have hpos : 0 < recordSize d.countEeg d.countAux := by
    unfold recordSize; omega
  have hq : 1 ≤ size / recordSize d.countEeg d.countAux :=
    (Nat.one_le_div_iff hpos).mpr hsize
  refine ⟨?_, ?_, ?_⟩
  · intro hne
    have hlen : 1 ≤ d.buffer.length := List.length_pos.mpr hne
    have hk1 : 1 ≤ min d.buffer.length (size / recordSize d.countEeg d.countAux) :=
      le_min hlen hq
    refine ⟨?_, ?_, ?_⟩
    · simp only [NVXGetData, drain]
      exact Int.ofNat_pos.mpr (Nat.mul_pos hk1 hpos)
    · simp only [NVXGetData, drain]
      rw [recordsBytes_length d.countEeg d.countAux _
          (fun s hs => hwf s (List.mem_of_mem_take hs)),
        List.length_take, Nat.min_eq_left (Nat.min_le_left _ _)]
    · intro d2 h2
      simp only [NVXGetData, drain] at h2
      have h3 := Option.some.inj h2
      rw [← h3]
      show (d.buffer.drop
        (min d.buffer.length (size / recordSize d.countEeg d.countAux))).length <
        d.buffer.length
      rw [List.length_drop]
      omega
  · intro hemp
    simp [NVXGetData, drain, hemp]
  · refine ⟨rfl, ?_, ?_⟩
    · show NVX_ERR_HANDLE ∈ nvxErrorCodes
      decide
    · show NVX_ERR_HANDLE < 0
      decide

/-- Witness for C2: on a device with one pushed record and a 4096-byte
buffer the drain return value is positive. -/
theorem NVXGetData_poll_contract_witness :
    recordSize 32 8 ≤ 4096 ∧
    0 < (NVXGetData (some (mkDevice 32 8 RunState.stopped true
      [zeroRecord 32 8])) 4096).1 :=
  ⟨by decide,
   ((NVXGetData_poll_contract (mkDevice 32 8 RunState.stopped true
        [zeroRecord 32 8]) 4096
      (by
        intro r hr
        simp only [mkDevice, List.mem_singleton] at hr
        subst hr
        exact ⟨by simp [zeroRecord, mkDevice], by simp [zeroRecord, mkDevice]⟩)
      (by decide)).1 (by simp [mkDevice])).1⟩

/-- C3: NVXImpedanceGetData fills the caller's buffer with exactly
CountEeg + 1 unsigned 32-bit Ohm values (one per EEG channel plus ground,
last entry the ground), and every electrode that is not physically
connected reports the sentinel NVX_IMP_INVALID, equal to INT_MAX, the
maximum representable signed 32-bit integer, on every scan. -/
theorem impedance_invalid_sentinel (d : Device) (i : Nat)
    (hi : i < d.countEeg + 1)
    (hconn : d.connected.getD i false = false) :
    (NVXImpedanceGetData (some d) ((d.countEeg + 1) * 4)).1 = NVX_ERR_OK ∧
    (NVXImpedanceGetData (some d) ((d.countEeg + 1) * 4)).2.length = d.countEeg + 1 ∧
    (NVXImpedanceGetData (some d) ((d.countEeg + 1) * 4)).2.getD i 0 = NVX_IMP_INVALID ∧
    NVX_IMP_INVALID = 2 ^ 31 - 1 := by
  have hout : NVXImpedanceGetData (some d) ((d.countEeg + 1) * 4) =
      (NVX_ERR_OK, impedanceValues d) := by
    simp [NVXImpedanceGetData]
  rw [hout]
  refine ⟨rfl, ?_, ?_, rfl⟩
  · simp [impedanceValues]
  · have hilen : i < (impedanceValues d).length := by
      simp only [impedanceValues, List.length_map, List.length_range]
      exact hi
    have hconn2 : d.connected[i]?.getD false = false := by
      simpa using hconn
    rw [List.getD_eq_getElem _ 0 hilen]
    simp [impedanceValues, hconn2]

/-- Witness for C3: on a device with two EEG channels and no electrode
connected, channel 0 reads the INVALID sentinel. -/
theorem impedance_invalid_sentinel_witness :
    0 < (mkDevice 2 0 RunState.stopped true []).countEeg + 1 ∧
    (mkDevice 2 0 RunState.stopped true []).connected.getD 0 false = false ∧
    (NVXImpedanceGetData (some (mkDevice 2 0 RunState.stopped true []))
      (((mkDevice 2 0 RunState.stopped true []).countEeg + 1) * 4)).2.getD 0 0 =
      NVX_IMP_INVALID :=
  ⟨by decide, by decide,
   (impedance_invalid_sentinel (mkDevice 2 0 RunState.stopped true []) 0
     (by decide) (by decide)).2.2.1⟩

/-- C5: NVXSetChannelsEnabled succeeds only in the Stopped state with
NVXSetPowerSave already applied; under those preconditions a correctly
sized buffer is accepted; and every call made while Running fails with the
Fail (internal-error) code and leaves the device, in particular its
channel-enable configuration and AcquisitionSettings, unchanged. -/
theorem setChannelsEnabled_gating (d : Device) (chans : List Bool) (size : Nat) :
    ((NVXSetChannelsEnabled d chans size).1 = NVX_ERR_OK →
      d.runState = RunState.stopped ∧ d.powerSaveApplied = true) ∧
    (d.runState = RunState.stopped → d.powerSaveApplied = true →
      size = d.countEeg + d.countAux → chans.length = d.countEeg + d.countAux →
      (NVXSetChannelsEnabled d chans size).1 = NVX_ERR_OK) ∧
    (d.runState = RunState.running →
      (NVXSetChannelsEnabled d chans size).1 = NVX_ERR_FAIL ∧
      (NVXSetChannelsEnabled d chans size).2 = d ∧
      (NVXSetChannelsEnabled d chans size).2.channelsEnabled = d.channelsEnabled ∧
      (NVXSetChannelsEnabled d chans size).2.settings = d.settings) := by
  unfold NVXSetChannelsEnabled
  refine ⟨?_, ?_, ?_⟩
  · intro hok
    split_ifs at hok with h1 h2 h3
    · exact absurd (show NVX_ERR_FAIL = NVX_ERR_OK from hok) (by decide)
    · exact absurd (show NVX_ERR_FAIL = NVX_ERR_OK from hok) (by decide)
    · refine ⟨?_, ?_⟩
      · cases hR : d.runState with
        | stopped => rfl
        | running => exact absurd hR h1
      · revert h2
        cases d.powerSaveApplied <;> simp
    · exact absurd (show NVX_ERR_PARAM = NVX_ERR_OK from hok) (by decide)
  · intro hs hp hsz hcl
    have h1 : ¬(d.runState = RunState.running) := by rw [hs]; decide
    have h2 : ¬((!d.powerSaveApplied) = true) := by rw [hp]; decide
    rw [if_neg h1, if_neg h2, if_pos ⟨hsz, hcl⟩]
  · intro hr
    rw [if_pos hr]
    exact ⟨rfl, rfl, rfl, rfl⟩

/-- Witness for C5: a running device rejects the call with the Fail code
and is left unchanged. -/
theorem setChannelsEnabled_gating_witness :
    (mkDevice 2 1 RunState.running true []).runState = RunState.running ∧
    ((NVXSetChannelsEnabled (mkDevice 2 1 RunState.running true []) [] 0).1 =
        NVX_ERR_FAIL ∧
      (NVXSetChannelsEnabled (mkDevice 2 1 RunState.running true []) [] 0).2 =
        mkDevice 2 1 RunState.running true [] ∧
      (NVXSetChannelsEnabled (mkDevice 2 1 RunState.running true []) [] 0).2.channelsEnabled =
        (mkDevice 2 1 RunState.running true []).channelsEnabled ∧
      (NVXSetChannelsEnabled (mkDevice 2 1 RunState.running true []) [] 0).2.settings =
        (mkDevice 2 1 RunState.running true []).settings) :=
  ⟨rfl, (setChannelsEnabled_gating (mkDevice 2 1 RunState.running true []) [] 0).2.2 rfl⟩

/-- Counterexample to C7 as stated: nvx.h line 496 declares the electrode
command buffer as unsigned int per electrode, so for CountEeg = 32 a call
passing a vector of exactly CountEeg + 1 = 33 bytes is structurally
invalid (Parameter error, no direct-control entry), while the same vector
passed with (CountEeg + 1) * 4 = 132 bytes succeeds. -/
theorem setElectrodes_not_byte_sized :
    (NVXSetElectrodes (mkDevice 32 8 RunState.stopped true [])
      (List.replicate 33 1) 33).1 = NVX_ERR_PARAM ∧
    (NVXSetElectrodes (mkDevice 32 8 RunState.stopped true [])
      (List.replicate 33 1) 33).2.electrodeOverride = none ∧
    (33 : Nat) ≠ ((mkDevice 32 8 RunState.stopped true []).countEeg + 1) * 4 ∧
    (NVXSetElectrodes (mkDevice 32 8 RunState.stopped true [])
      (List.replicate 33 1) 132).1 = NVX_ERR_OK := by
  decide

/-- C7 amended: the electrode command vector is an ordered sequence of
per-electrode unsigned 32-bit state words of exactly CountEeg + 1 entries
(one per EEG electrode plus one for ground, last entry the ground), so
exactly (CountEeg + 1) * 4 bytes: a non-empty buffer of exactly that size
enters direct-control mode, a null/empty buffer exits it and restores the
current Mode's default electrode behaviour, and any other size is
structurally invalid. -/
theorem setElectrodes_vector_size (d : Device) (buf : List Nat) :
    (buf ≠ [] → buf.length = d.countEeg + 1 →
      (NVXSetElectrodes d buf ((d.countEeg + 1) * 4)).1 = NVX_ERR_OK ∧
      (NVXSetElectrodes d buf ((d.countEeg + 1) * 4)).2.electrodeOverride =
        some buf) ∧
    ((NVXSetElectrodes d buf 0).1 = NVX_ERR_OK ∧
      (NVXSetElectrodes d buf 0).2.electrodeOverride = none) ∧
    (∀ size, size ≠ 0 → buf ≠ [] → size ≠ (d.countEeg + 1) * 4 →
      (NVXSetElectrodes d buf size).1 = NVX_ERR_PARAM ∧
      (NVXSetElectrodes d buf size).2 = d) := by
  refine ⟨?_, ?_, ?_⟩
  · intro hne hlen
    have hc : ¬((d.countEeg + 1) * 4 = 0 ∨ buf = []) := by
      rintro (h | h)
      · omega
      · exact hne h
    unfold NVXSetElectrodes
    rw [if_neg hc, if_pos ⟨rfl, hlen⟩]
    exact ⟨rfl, rfl⟩
  · unfold NVXSetElectrodes
    rw [if_pos (Or.inl rfl)]
    exact ⟨rfl, rfl⟩
  · intro size hs hne hneq
    have hc : ¬(size = 0 ∨ buf = []) := by
      rintro (h | h)
      · exact hs h
      · exact hne h
    have hc2 : ¬(size = (d.countEeg + 1) * 4 ∧ buf.length = d.countEeg + 1) := by
      rintro ⟨h, _⟩
      exact hneq h
    unfold NVXSetElectrodes
    rw [if_neg hc, if_neg hc2]
    exact ⟨rfl, rfl⟩

/-- Witness for the amended C7: a 33-entry vector with Size = 132 bytes
enters direct-control mode on a CountEeg = 32 device. -/
theorem setElectrodes_vector_size_witness :
    List.replicate 33 1 ≠ ([] : List Nat) ∧
    (List.replicate 33 1).length =
      (mkDevice 32 8 RunState.stopped true []).countEeg + 1 ∧
    ((NVXSetElectrodes (mkDevice 32 8 RunState.stopped true [])
        (List.replicate 33 1)
        (((mkDevice 32 8 RunState.stopped true []).countEeg + 1) * 4)).1 =
      NVX_ERR_OK ∧
      (NVXSetElectrodes (mkDevice 32 8 RunState.stopped true [])
        (List.replicate 33 1)
        (((mkDevice 32 8 RunState.stopped true []).countEeg + 1) * 4)).2.electrodeOverride =
      some (List.replicate 33 1)) :=
  ⟨by decide, by decide,
   (setElectrodes_vector_size (mkDevice 32 8 RunState.stopped true [])
     (List.replicate 33 1)).1 (by decide) (by decide)⟩

/-- C9: a NULL device handle is not uniformly rejected with the Handle
error: NVXGetVersion succeeds with only the Dll field valid,
NVXGetSampeRateCount and NVXGetFrequencyBandwidth succeed with default
values, and every other handle-taking entry point rejects NULL with
NVX_ERR_HANDLE. -/
theorem nullHandle_exceptions :
    callWithNullHandle ApiOp.getVersion = NVX_ERR_OK ∧
    validVersionFields none = [VersionField.dll] ∧
    (NVXGetSampeRateCount none).1 = NVX_ERR_OK ∧
    (NVXGetSampeRateCount none).2 = defaultSampleRateCount ∧
    callWithNullHandle ApiOp.getSampeRateCount = NVX_ERR_OK ∧
    callWithNullHandle ApiOp.getFrequencyBandwidth = NVX_ERR_OK ∧
    (∀ op : ApiOp, op ≠ ApiOp.getVersion → op ≠ ApiOp.getSampeRateCount →
      op ≠ ApiOp.getFrequencyBandwidth →
      callWithNullHandle op = NVX_ERR_HANDLE) := by
  refine ⟨rfl, rfl, rfl, rfl, rfl, rfl, ?_⟩
  intro op h1 h2 h3
  cases op <;>
    first
    | rfl
    | exact absurd rfl h1
    | exact absurd rfl h2
    | exact absurd rfl h3

/-- Witness for C9: NVXClose is one of the operations that rejects a NULL
handle with the Handle error. -/
theorem nullHandle_exceptions_witness :
    ApiOp.close ≠ ApiOp.getVersion ∧
    callWithNullHandle ApiOp.close = NVX_ERR_HANDLE :=
  ⟨by decide,
   nullHandle_exceptions.2.2.2.2.2.2 ApiOp.close (by decide) (by decide) (by decide)⟩
